import Mathlib

/-!
Shallow embedding of the sheets-api core: base64url encoding (src/utils.ts),
JWT assertion construction and token exchange (src/jwt.ts), the token cache
and the record-to-row append path (src/sheets.ts), and the read path
(readFromSheet, modelled from the spec since its implementation is not in
the source tree).  Machine integers are Nat; bytes carry an explicit
`< 256` bound where it matters.  Remote HTTP calls are modelled by an
explicit environment describing the responses, and the client calls an
operation issues are returned as an explicit list.
-/

set_option maxHeartbeats 1000000

namespace SheetsApi

/-! ## base64url (src/utils.ts) -/

/-- The base64 alphabet in index order, as used by `btoa`/`atob`. -/
def b64alphabet : List Char :=
  ['A','B','C','D','E','F','G','H','I','J','K','L','M','N','O','P',
   'Q','R','S','T','U','V','W','X','Y','Z',
   'a','b','c','d','e','f','g','h','i','j','k','l','m','n','o','p',
   'q','r','s','t','u','v','w','x','y','z',
   '0','1','2','3','4','5','6','7','8','9','+','/']

/-- Character for a 6-bit value. -/
def b64char (n : Nat) : Char := b64alphabet.getD n 'A'

/-- 6-bit value of a base64 character (index in the alphabet). -/
def b64value (c : Char) : Nat := b64alphabet.indexOf c

/-- `btoa` on a byte sequence: 3 bytes become 4 characters, a short final
group is padded with `=`. -/
def b64encodeBytes : List Nat → List Char
  | [] => []
  | [b1] => [b64char (b1 / 4), b64char (b1 % 4 * 16), '=', '=']
  | [b1, b2] => [b64char (b1 / 4), b64char (b1 % 4 * 16 + b2 / 16), b64char (b2 % 16 * 4), '=']
  | b1 :: b2 :: b3 :: rest =>
      b64char (b1 / 4) :: b64char (b1 % 4 * 16 + b2 / 16) ::
      b64char (b2 % 16 * 4 + b3 / 64) :: b64char (b3 % 64) :: b64encodeBytes rest

/-- `atob` on a padded base64 character sequence: 4 characters become 3
bytes, with `=` padding cutting the final group short. -/
def b64decodeChars : List Char → List Nat
  | c1 :: c2 :: c3 :: c4 :: rest =>
      if c3 = '=' then [b64value c1 * 4 + b64value c2 / 16]
      else if c4 = '=' then
        [b64value c1 * 4 + b64value c2 / 16, b64value c2 % 16 * 16 + b64value c3 / 4]
      else
        (b64value c1 * 4 + b64value c2 / 16) ::
        (b64value c2 % 16 * 16 + b64value c3 / 4) ::
        (b64value c3 % 4 * 64 + b64value c4) :: b64decodeChars rest
  | _ => []

/-- `.replace(/\+/g, '-').replace(/\//g, '_')` applied per character. -/
def b64urlSwap (c : Char) : Char := if c = '+' then '-' else if c = '/' then '_' else c

/-- The decoder's inverse replacements (dash back to plus, underscore back
to slash), applied per character. -/
def b64urlUnswap (c : Char) : Char := if c = '-' then '+' else if c = '_' then '/' else c

/-- `base64url.encode` on bytes (src/utils.ts lines 6-22): `btoa`, make the
two special characters URL-safe, strip `=` padding. -/
def base64urlEncodeChars (bytes : List Nat) : List Char :=
  ((b64encodeBytes bytes).map b64urlSwap).filter (fun c => c != '=')

/-- `while (base64.length % 4) base64 += '='` (src/utils.ts lines 31-33),
as the closed form appending `(4 - len % 4) % 4` padding characters. -/
def b64pad (s : List Char) : List Char :=
  s ++ List.replicate ((4 - s.length % 4) % 4) '='

/-- `base64url.decode` (src/utils.ts lines 24-45): undo the URL-safe
replacements, restore padding, `atob`. -/
def base64urlDecodeChars (s : List Char) : List Nat :=
  b64decodeChars (b64pad (s.map b64urlUnswap))

/-- `base64url.encode` at the string level. -/
def base64urlEncode (bytes : List Nat) : String := String.mk (base64urlEncodeChars bytes)

/-- `base64url.decode` at the string level. -/
def base64urlDecode (s : String) : List Nat := base64urlDecodeChars s.data

/-- The string overload of `base64url.encode`: `btoa(data)` treats the
string's characters as byte values. -/
def base64urlEncodeString (s : String) : String :=
  String.mk (base64urlEncodeChars (s.data.map Char.toNat))

theorem b64value_b64char : ∀ n < 64, b64value (b64char n) = n := by decide

theorem swap_facts : ∀ n < 64,
    (b64urlSwap (b64char n) != '=') = true ∧
    b64urlUnswap (b64urlSwap (b64char n)) = b64char n ∧
    b64char n ≠ '=' := by decide

theorem swap_eq_char : b64urlSwap '=' = '=' := rfl

theorem b64decodeChars_cons (c1 c2 c3 c4 : Char) (t : List Char)
    (h3 : c3 ≠ '=') (h4 : c4 ≠ '=') :
    b64decodeChars (c1 :: c2 :: c3 :: c4 :: t) =
      (b64value c1 * 4 + b64value c2 / 16) ::
      (b64value c2 % 16 * 16 + b64value c3 / 4) ::
      (b64value c3 % 4 * 64 + b64value c4) :: b64decodeChars t := by
  rw [b64decodeChars, if_neg h3, if_neg h4]

theorem b64pad_append (a t : List Char) (h : a.length = 4) :
    b64pad (a ++ t) = a ++ b64pad t := by
  unfold b64pad
  rw [List.length_append, h, List.append_assoc]
  have h4 : (4 - (4 + t.length) % 4) % 4 = (4 - t.length % 4) % 4 := by omega
  rw [h4]

theorem base64url_roundtrip_chars : ∀ bytes : List Nat, (∀ b ∈ bytes, b < 256) →
    base64urlDecodeChars (base64urlEncodeChars bytes) = bytes := by
  intro bytes
  induction bytes using b64encodeBytes.induct with
  | case1 => intro _; rfl
  | case2 b1 =>
    intro h
    have hb1 : b1 < 256 := h b1 (by simp)
    have h1 := swap_facts (b1 / 4) (by omega)
    have h2 := swap_facts (b1 % 4 * 16) (by omega)
    have v1 := b64value_b64char (b1 / 4) (by omega)
    have v2 := b64value_b64char (b1 % 4 * 16) (by omega)
    have henc : base64urlEncodeChars [b1] =
        [b64urlSwap (b64char (b1 / 4)), b64urlSwap (b64char (b1 % 4 * 16))] := by
      simp only [base64urlEncodeChars, b64encodeBytes, List.map_cons, List.map_nil,
        List.filter_cons, List.filter_nil, h1.1, h2.1, swap_eq_char, if_true]
      norm_num
    rw [henc, base64urlDecodeChars, List.map_cons, List.map_cons, List.map_nil,
      h1.2.1, h2.2.1]
    rw [show b64pad [b64char (b1 / 4), b64char (b1 % 4 * 16)] =
      [b64char (b1 / 4), b64char (b1 % 4 * 16), '=', '='] from by
        simp [b64pad, List.replicate]]
    rw [b64decodeChars, if_pos rfl, v1, v2]
    congr 1
    omega
  | case3 b1 b2 =>
    intro h
    have hb1 : b1 < 256 := h b1 (by simp)
    have hb2 : b2 < 256 := h b2 (by simp)
    have h1 := swap_facts (b1 / 4) (by omega)
    have h2 := swap_facts (b1 % 4 * 16 + b2 / 16) (by omega)
    have h3 := swap_facts (b2 % 16 * 4) (by omega)
    have v1 := b64value_b64char (b1 / 4) (by omega)
    have v2 := b64value_b64char (b1 % 4 * 16 + b2 / 16) (by omega)
    have v3 := b64value_b64char (b2 % 16 * 4) (by omega)
    have henc : base64urlEncodeChars [b1, b2] =
        [b64urlSwap (b64char (b1 / 4)), b64urlSwap (b64char (b1 % 4 * 16 + b2 / 16)),
         b64urlSwap (b64char (b2 % 16 * 4))] := by
      simp only [base64urlEncodeChars, b64encodeBytes, List.map_cons, List.map_nil,
        List.filter_cons, List.filter_nil, h1.1, h2.1, h3.1, swap_eq_char, if_true]
      norm_num
    rw [henc, base64urlDecodeChars, List.map_cons, List.map_cons, List.map_cons, List.map_nil,
      h1.2.1, h2.2.1, h3.2.1]
    rw [show b64pad [b64char (b1 / 4), b64char (b1 % 4 * 16 + b2 / 16), b64char (b2 % 16 * 4)] =
      [b64char (b1 / 4), b64char (b1 % 4 * 16 + b2 / 16), b64char (b2 % 16 * 4), '='] from by
        simp [b64pad, List.replicate]]
    rw [b64decodeChars, if_neg h3.2.2, if_pos rfl, v1, v2, v3]
    congr 1
    · omega
    congr 1
    omega
  | case4 b1 b2 b3 rest ih =>
    intro h
    have hb1 : b1 < 256 := h b1 (by simp)
    have hb2 : b2 < 256 := h b2 (by simp)
    have hb3 : b3 < 256 := h b3 (by simp)
    have hrest : ∀ b ∈ rest, b < 256 := fun b hb => h b (by simp [hb])
    have h1 := swap_facts (b1 / 4) (by omega)
    have h2 := swap_facts (b1 % 4 * 16 + b2 / 16) (by omega)
    have h3 := swap_facts (b2 % 16 * 4 + b3 / 64) (by omega)
    have h4 := swap_facts (b3 % 64) (by omega)
    have v1 := b64value_b64char (b1 / 4) (by omega)
    have v2 := b64value_b64char (b1 % 4 * 16 + b2 / 16) (by omega)
    have v3 := b64value_b64char (b2 % 16 * 4 + b3 / 64) (by omega)
    have v4 := b64value_b64char (b3 % 64) (by omega)
    have henc : base64urlEncodeChars (b1 :: b2 :: b3 :: rest) =
        b64urlSwap (b64char (b1 / 4)) :: b64urlSwap (b64char (b1 % 4 * 16 + b2 / 16)) ::
        b64urlSwap (b64char (b2 % 16 * 4 + b3 / 64)) :: b64urlSwap (b64char (b3 % 64)) ::
        base64urlEncodeChars rest := by
      simp only [base64urlEncodeChars, b64encodeBytes, List.map_cons,
        List.filter_cons, h1.1, h2.1, h3.1, h4.1, if_true]
    rw [henc]
    rw [base64urlDecodeChars, List.map_cons, List.map_cons, List.map_cons, List.map_cons,
      h1.2.1, h2.2.1, h3.2.1, h4.2.1]
    have hpad : b64pad (b64char (b1 / 4) :: b64char (b1 % 4 * 16 + b2 / 16) ::
        b64char (b2 % 16 * 4 + b3 / 64) :: b64char (b3 % 64) ::
        (base64urlEncodeChars rest).map b64urlUnswap) =
        b64char (b1 / 4) :: b64char (b1 % 4 * 16 + b2 / 16) ::
        b64char (b2 % 16 * 4 + b3 / 64) :: b64char (b3 % 64) ::
        b64pad ((base64urlEncodeChars rest).map b64urlUnswap) := by
      have := b64pad_append [b64char (b1 / 4), b64char (b1 % 4 * 16 + b2 / 16),
        b64char (b2 % 16 * 4 + b3 / 64), b64char (b3 % 64)]
        ((base64urlEncodeChars rest).map b64urlUnswap) (by simp)
      simpa using this
    rw [hpad]
    rw [b64decodeChars_cons _ _ _ _ _ h3.2.2 h4.2.2]
    simp only [v1, v2, v3, v4]
    have hih : b64decodeChars (b64pad ((base64urlEncodeChars rest).map b64urlUnswap)) = rest :=
      ih hrest
    rw [hih]
    simp only [List.cons.injEq]
    refine ⟨by omega, by omega, by omega, trivial⟩

theorem base64urlEncodeChars_alphabet (bytes : List Nat) :
    ∀ c ∈ base64urlEncodeChars bytes, c ≠ '=' ∧ c ≠ '+' ∧ c ≠ '/' := by
  intro c hc
  simp only [base64urlEncodeChars, List.mem_filter, List.mem_map, bne_iff_ne, ne_eq] at hc
  obtain ⟨⟨c', _hc', rfl⟩, hne⟩ := hc
  refine ⟨hne, ?_, ?_⟩ <;>
    · simp only [b64urlSwap]
      split_ifs with hp hq <;> simp_all

/-! ## JWT construction and token exchange (src/jwt.ts) -/

/-- `JSON.stringify` escaping for the characters that can occur here:
a quote or backslash inside a string value gets a backslash. -/
def jsonEscape (s : String) : String :=
  String.mk (s.data.flatMap (fun c => if c = '"' ∨ c = '\\' then ['\\', c] else [c]))

/-- `JSON.stringify({alg: 'RS256', typ: 'JWT'})` (src/jwt.ts lines 38-41). -/
def jwtHeaderJson : String := "\x7b\"alg\":\"RS256\",\"typ\":\"JWT\"\x7d"

/-- The fixed token-endpoint URL, used both as the JWT audience and as the
exchange target (src/jwt.ts lines 48, 82). -/
def googleTokenAud : String := "https://oauth2.googleapis.com/token"

/-- `JSON.stringify(payload)` for the claim set built at src/jwt.ts lines
44-51: iss, scope (space-joined), aud, exp = now + 3600, iat = now, in the
object-literal key order. -/
def jwtClaimsJson (email : String) (scopes : List String) (now : Nat) : String :=
  "\x7b\"iss\":\"" ++ jsonEscape email ++ "\",\"scope\":\"" ++
    jsonEscape (String.intercalate " " scopes) ++ "\",\"aud\":\"" ++ googleTokenAud ++
    "\",\"exp\":" ++ toString (now + 3600) ++ ",\"iat\":" ++ toString now ++ "\x7d"

/-- `createJWT` (src/jwt.ts lines 37-79): base64url-encode header and
claims, sign `header.claims`, append the base64url signature.  The RSA
signing itself is abstracted as `signFn` from the signing input to the
signature bytes. -/
def createJWT (signFn : String → List Nat) (email : String) (scopes : List String)
    (now : Nat) : String :=
  let headerB64 := base64urlEncodeString jwtHeaderJson
  let payloadB64 := base64urlEncodeString (jwtClaimsJson email scopes now)
  let signingInput := headerB64 ++ "." ++ payloadB64
  let signature := signFn signingInput
  signingInput ++ "." ++ String.mk (base64urlEncodeChars signature)

/-- The token endpoint's observed response: HTTP ok flag, body text, and the
`access_token` field of the JSON body when ok. -/
structure TokenResponse where
  ok : Bool
  body : String
  accessToken : String
deriving DecidableEq

/-- `exchangeJWTForToken` (src/jwt.ts lines 81-99): one POST; on non-2xx
throw `Token exchange failed: <body>`.  The second component counts the
fetch calls issued. -/
def exchangeJWTForToken (resp : TokenResponse) : Except String String × Nat :=
  if resp.ok then (Except.ok resp.accessToken, 1)
  else (Except.error ("Token exchange failed: " ++ resp.body), 1)

/-! ## Token cache (src/sheets.ts, WebCryptoSheetsClient lines 42-72) -/

/-- The client's mutable token slot: `accessToken` (null initially) and
`tokenExpiry` in milliseconds. -/
structure ClientState where
  accessToken : Option String
  tokenExpiry : Nat
deriving DecidableEq

/-- JS truthiness of `this.accessToken`: present and non-empty. -/
def tokenTruthy : Option String → Bool
  | none => false
  | some t => t != ""

/-- `getAccessToken` (src/sheets.ts lines 53-72): return the cached token
if truthy and `now < tokenExpiry`; otherwise mint (abstracted as the string
`mintResult`), cache it with expiry `now + 55 minutes`, and return it.  The
third component counts the mints performed. -/
def getAccessToken (mintResult : String) (now : Nat) (st : ClientState) :
    String × ClientState × Nat :=
  if tokenTruthy st.accessToken = true ∧ now < st.tokenExpiry then
    (st.accessToken.getD "", st, 0)
  else
    (mintResult, ⟨some mintResult, now + 55 * 60 * 1000⟩, 1)

/-! ## Append path (src/sheets.ts lines 95-181) -/

/-- Scalar cell values of the JSON payload. -/
inductive CellValue where
  | str (s : String)
  | num (n : Int)
  | boolV (b : Bool)
  | null
deriving DecidableEq

/-- A record: JS object as an association list in the object's own
key-iteration order. -/
abbrev SheetRecord := List (String × CellValue)

/-- `Object.keys(item)` in iteration order. -/
def recordKeys (item : SheetRecord) : List String := item.map Prod.fst

/-- One `allKeys.add(key)` step on a JS `Set`, which keeps first-insertion
order: append only if absent. -/
def insertKey (acc : List String) (k : String) : List String :=
  if k ∈ acc then acc else acc ++ [k]

/-- src/sheets.ts lines 163-168: the column set, as the `Set`-insertion
order of all keys over all records. -/
def collectColumns (data : List SheetRecord) : List String :=
  data.foldl (fun acc item => (recordKeys item).foldl insertKey acc) []

/-- `item[key] ?? ''`: a cell; absent field or null value becomes `''`. -/
def projectCell (item : SheetRecord) (key : String) : CellValue :=
  match item.lookup key with
  | none => CellValue.str ""
  | some v => if v = CellValue.null then CellValue.str "" else v

/-- src/sheets.ts lines 170-173: one row per record, cells aligned to the
column order. -/
def buildRows (data : List SheetRecord) : List (List CellValue) :=
  data.map (fun item => (collectColumns data).map (projectCell item))

/-- All keys of the batch as one left-to-right stream: records in batch
order, each record's keys in its own order. -/
def allKeys (data : List SheetRecord) : List String :=
  (data.map recordKeys).flatten

/-- Modelled from the spec: "ordered by first occurrence across the batch" —
keep each key at the position of its first appearance in the stream. -/
def dedupFirst : List String → List String
  | [] => []
  | k :: ks => k :: dedupFirst (ks.filter (fun x => x != k))
termination_by l => l.length
decreasing_by
  simp only [List.length_cons]
  exact Nat.lt_succ_of_le (List.length_filter_le _ _)

/-- One tab's properties from the spreadsheet metadata. -/
structure SheetProps where
  sheetId : Nat
  title : String
deriving DecidableEq

/-- Environment describing the remote responses one `appendToSheet` run can
observe: the metadata fetch's outcome and tab list, and the append call's
outcome and `updates.updatedRows` field (`none` = absent response field). -/
structure SheetsEnv where
  metadataOk : Bool
  metadataBody : String
  sheets : List SheetProps
  appendOk : Bool
  appendBody : String
  appendUpdates : Option (Option Nat)
deriving DecidableEq

/-- The SheetClient calls an operation issues, in order. -/
inductive ClientCall where
  | metadataFetch
  | appendCall (range : String) (values : List (List CellValue))
deriving DecidableEq

/-- src/sheets.ts line 142: `range.includes('!') ? range.split('!')[0] :
undefined`. -/
def parseSheetName (range : String) : Option String :=
  if range.data.contains '!' then some (String.mk (range.data.takeWhile (fun c => c != '!')))
  else none

/-- src/sheets.ts lines 144-156: resolve the target tab — the named tab if
the range names one (error if absent), else the first tab (error if none). -/
def findTargetSheet (env : SheetsEnv) (range : String) : Except String SheetProps :=
  match parseSheetName range with
  | some name =>
    match env.sheets.find? (fun s => s.title == name) with
    | some s => Except.ok s
    | none => Except.error ("Sheet \"" ++ name ++ "\" not found")
  | none =>
    match env.sheets.head? with
    | some s => Except.ok s
    | none => Except.error "No sheets found in spreadsheet"

/-- `WebCryptoSheetsClient.appendValues` (src/sheets.ts lines 95-125) as a
function of the observed response: non-2xx throws `Failed to append values:
<body>`; success returns `result.updates?.updatedRows || 0`. -/
def appendValues (env : SheetsEnv) : Except String Nat :=
  if env.appendOk then
    Except.ok (match env.appendUpdates with
      | some (some n) => n
      | _ => 0)
  else Except.error ("Failed to append values: " ++ env.appendBody)

/-- `appendToSheet` (src/sheets.ts lines 128-181): fetch metadata, resolve
the target tab, return `{written: 0}` on an empty batch, else build the
column union and rows and issue the append call.  Returns the result and
the list of SheetClient calls issued, in order. -/
def appendToSheet (env : SheetsEnv) (range : String) (data : List SheetRecord) :
    Except String Nat × List ClientCall :=
  if env.metadataOk = false then
    (Except.error ("Failed to get spreadsheet info: " ++ env.metadataBody),
     [ClientCall.metadataFetch])
  else
    match findTargetSheet env range with
    | Except.error e => (Except.error e, [ClientCall.metadataFetch])
    | Except.ok target =>
      if data.isEmpty then (Except.ok 0, [ClientCall.metadataFetch])
      else
        let values := buildRows data
        let targetRange :=
          match parseSheetName range with
          | some _ => range
          | none => target.title ++ "!A:Z"
        match appendValues env with
        | Except.ok n =>
          (Except.ok n, [ClientCall.metadataFetch, ClientCall.appendCall targetRange values])
        | Except.error e =>
          (Except.error e, [ClientCall.metadataFetch, ClientCall.appendCall targetRange values])

/-! ## Read path -/

/-- The `format` query parameter of the GET endpoints. -/
inductive ReadFormat where
  | raw
  | objects
deriving DecidableEq

/-- Zip one data row against the header: missing trailing cells map to the
empty string, extra trailing cells beyond the header length are dropped. -/
def rowToRecord : List String → List String → List (String × String)
  | [], _ => []
  | h :: hs, [] => (h, "") :: rowToRecord hs []
  | h :: hs, c :: cs => (h, c) :: rowToRecord hs cs

/-- Result payload of a read: the raw 2D array or the list of records. -/
inductive ReadData where
  | raw (values : List (List String))
  | objects (records : List (List (String × String)))
deriving DecidableEq

/-- `{data, count}` of a read. -/
structure ReadResult where
  data : ReadData
  count : Nat
deriving DecidableEq

/-- Modelled from the spec: `readFromSheet` (the v2.1.0 GET path; the
changelog and src/index.ts name it but its implementation is not in the
source tree).  Spec 4.5: raw format returns the fetched 2D array with
`count = number of rows`; objects format treats the first row as the
header, maps each later row to a record, and returns `count = number of
rows including the header row`, the header never surfacing as a record. -/
def readFromSheet (values : List (List String)) (format : ReadFormat) : ReadResult :=
  match format with
  | ReadFormat.raw => ⟨ReadData.raw values, values.length⟩
  | ReadFormat.objects =>
    match values with
    | [] => ⟨ReadData.objects [], 0⟩
    | header :: rest => ⟨ReadData.objects (rest.map (rowToRecord header)), rest.length + 1⟩

/-! ## Helper lemmas for the column union -/

theorem foldl_insertKey_eq (ks : List String) :
    ∀ acc, ks.foldl insertKey acc
      = acc ++ dedupFirst (ks.filter (fun x => !(acc.contains x))) := by
  induction ks with
  | nil => intro acc; simp [dedupFirst]
  | cons k ks ih =>
    intro acc
    by_cases hk : k ∈ acc
    · have h1 : insertKey acc k = acc := by simp [insertKey, hk]
      have h2 : (k :: ks).filter (fun x => !(acc.contains x))
          = ks.filter (fun x => !(acc.contains x)) := by
        simp [List.filter_cons, hk]
      rw [List.foldl_cons, h1, h2, ih acc]
    · have h1 : insertKey acc k = acc ++ [k] := by simp [insertKey, hk]
      have h2 : (k :: ks).filter (fun x => !(acc.contains x))
          = k :: ks.filter (fun x => !(acc.contains x)) := by
        simp [List.filter_cons, hk]
      rw [List.foldl_cons, h1, h2, ih (acc ++ [k]), dedupFirst]
      rw [List.filter_filter, List.append_assoc, List.singleton_append]
      congr 2
      congr 1
      apply List.filter_congr
      intro x _
      by_cases hxk : x = k
      · subst hxk; simp
      · by_cases hxa : x ∈ acc <;> simp [hxa, hxk]

theorem collectColumns_eq_dedupFirst (data : List SheetRecord) :
    collectColumns data = dedupFirst (allKeys data) := by
  have h : ∀ init, data.foldl (fun acc item => (recordKeys item).foldl insertKey acc) init
      = (allKeys data).foldl insertKey init := by
    induction data with
    | nil => intro init; simp [allKeys]
    | cons r rest ih =>
      intro init
      have hflat : allKeys (r :: rest) = recordKeys r ++ allKeys rest := by
        simp [allKeys]
      rw [List.foldl_cons, ih, hflat, List.foldl_append]
  rw [collectColumns, h, foldl_insertKey_eq]
  simp

/-! ## Example batches from the spec's testable properties -/

/-- The batch `[{a:1,b:2},{b:3,c:4}]`. -/
def exampleBatch : List SheetRecord :=
  [[("a", CellValue.num 1), ("b", CellValue.num 2)],
   [("b", CellValue.num 3), ("c", CellValue.num 4)]]

/-- The batch `[{a:1},{a:2,b:3}]`. -/
def exampleBatchFill : List SheetRecord :=
  [[("a", CellValue.num 1)],
   [("a", CellValue.num 2), ("b", CellValue.num 3)]]

/-! ## Claim theorems -/

/-- Claim C1: for every non-empty append batch the column set is the union
of all record keys, ordered by each key's first occurrence scanning records
left-to-right; on `[{a:1,b:2},{b:3,c:4}]` the header is `[a,b,c]` and the
rows are `[1,2,'']` and `['',3,4]`. -/
theorem append_column_union_first_occurrence :
    (∀ data : List SheetRecord, data ≠ [] →
        collectColumns data = dedupFirst (allKeys data)) ∧
    collectColumns exampleBatch = ["a", "b", "c"] ∧
    buildRows exampleBatch =
      [[CellValue.num 1, CellValue.num 2, CellValue.str ""],
       [CellValue.str "", CellValue.num 3, CellValue.num 4]] :=
  ⟨fun data _ => collectColumns_eq_dedupFirst data, by decide, by decide⟩

/-- Witness for C1 at the concrete batch `[{x:5}]`. -/
theorem append_column_union_first_occurrence_witness :
    collectColumns [[("x", CellValue.num 5)]]
      = dedupFirst (allKeys [[("x", CellValue.num 5)]]) :=
  append_column_union_first_occurrence.1 [[("x", CellValue.num 5)]] (by decide)

/-- Claim C2: an append whose range names a tab absent from the metadata
fails with the sheet-not-found error and issues no append call — the only
SheetClient call is the metadata fetch; no other tab is substituted. -/
theorem append_missing_tab_fails (env : SheetsEnv) (range : String)
    (data : List SheetRecord) (name : String)
    (hmeta : env.metadataOk = true)
    (hname : parseSheetName range = some name)
    (habsent : ∀ s ∈ env.sheets, s.title ≠ name) :
    appendToSheet env range data =
      (Except.error ("Sheet \"" ++ name ++ "\" not found"), [ClientCall.metadataFetch]) := by
  have hfind : env.sheets.find? (fun s => s.title == name) = none := by
    rw [List.find?_eq_none]
    intro s hs
    simpa using habsent s hs
  simp [appendToSheet, findTargetSheet, hmeta, hname, hfind]

/-- Witness for C2: a spreadsheet with only a tab `Data`, appending to
`Missing!A:Z`. -/
theorem append_missing_tab_fails_witness :
    appendToSheet ⟨true, "", [⟨0, "Data"⟩], true, "", some (some 1)⟩ "Missing!A:Z"
        [[("a", CellValue.num 1)]] =
      (Except.error ("Sheet \"" ++ "Missing" ++ "\" not found"), [ClientCall.metadataFetch]) :=
  append_missing_tab_fails ⟨true, "", [⟨0, "Data"⟩], true, "", some (some 1)⟩
    "Missing!A:Z" [[("a", CellValue.num 1)]] "Missing" rfl (by decide) (by decide)

/-- Environment for the empty-batch run: metadata fetch succeeds, tab
`Sheet1` exists, the append endpoint would succeed. -/
def envEmptyBatch : SheetsEnv := ⟨true, "", [⟨0, "Sheet1"⟩], true, "", some (some 1)⟩

/-- Counterexample to C3 as stated: on an empty batch the code still issues
a SheetClient call — `getSpreadsheetInfo` runs before the empty-batch check
(src/sheets.ts line 139 precedes line 159) — even though it returns
`{written: 0}`. -/
theorem append_empty_batch_counterexample :
    appendToSheet envEmptyBatch "Sheet1!A:Z" []
      = (Except.ok 0, [ClientCall.metadataFetch]) ∧
    ([ClientCall.metadataFetch] : List ClientCall) ≠ [] :=
  ⟨rfl, by decide⟩

/-- Claim C3 amended: an empty batch returns `{written: 0}` and issues no
append call, but the metadata fetch (one SheetClient call) still happens
before the empty-batch check. -/
theorem append_empty_batch_no_append_call :
    (∀ (env : SheetsEnv) (range : String),
        ∀ c ∈ (appendToSheet env range []).2, c = ClientCall.metadataFetch) ∧
    (∀ (env : SheetsEnv) (range : String) (s : SheetProps),
        env.metadataOk = true → findTargetSheet env range = Except.ok s →
        appendToSheet env range [] = (Except.ok 0, [ClientCall.metadataFetch])) := by
  constructor
  · intro env range c hc
    unfold appendToSheet at hc
    by_cases hm : env.metadataOk = false
    · simp [hm] at hc; exact hc
    · simp only [hm, if_false] at hc
      cases hft : findTargetSheet env range with
      | error e => simp [hft] at hc; exact hc
      | ok s => simp [hft] at hc; exact hc
  · intro env range s hm hft
    simp [appendToSheet, hm, hft]

/-- Witness for C3's amended claim at the concrete environment. -/
theorem append_empty_batch_no_append_call_witness :
    appendToSheet envEmptyBatch "Sheet1!A:Z" []
      = (Except.ok 0, [ClientCall.metadataFetch]) :=
  append_empty_batch_no_append_call.2 envEmptyBatch "Sheet1!A:Z" ⟨0, "Sheet1"⟩ rfl rfl

/-- Claim C4: a cached non-empty token with `now < tokenExpiry` is returned
unchanged with no mint and unchanged state; otherwise exactly one mint
occurs and the new token is stored with expiry `now + 55 minutes` (in
milliseconds), so the cached token serves every call before that instant. -/
theorem token_cache_reuse_and_mint :
    (∀ (st : ClientState) (now : Nat) (mintResult t : String),
        st.accessToken = some t → t ≠ "" → now < st.tokenExpiry →
        getAccessToken mintResult now st = (t, st, 0)) ∧
    (∀ (st : ClientState) (now : Nat) (mintResult : String),
        ¬(tokenTruthy st.accessToken = true ∧ now < st.tokenExpiry) →
        getAccessToken mintResult now st =
          (mintResult, ⟨some mintResult, now + 55 * 60 * 1000⟩, 1)) := by
  constructor
  · intro st now mintResult t hsome hne hlt
    have htr : tokenTruthy st.accessToken = true := by
      simp [tokenTruthy, hsome, hne]
    rw [getAccessToken, if_pos ⟨htr, hlt⟩, hsome]
    rfl
  · intro st now mintResult hnot
    rw [getAccessToken, if_neg hnot]

/-- Witness for C4: a cached token `tok` expiring at 10 is served at time 5
with zero mints. -/
theorem token_cache_reuse_and_mint_witness :
    getAccessToken "new" 5 ⟨some "tok", 10⟩ = ("tok", ⟨some "tok", 10⟩, 0) :=
  token_cache_reuse_and_mint.1 ⟨some "tok", 10⟩ 5 "new" "tok" rfl (by decide) (by decide)

/-- Claim C6: each record yields exactly one row aligned to the column
union, a present non-null field projects its value, an absent field
projects the empty string; `[{a:1},{a:2,b:3}]` yields `[[1,''],[2,3]]`. -/
theorem append_row_projection :
    (∀ data : List SheetRecord,
        buildRows data = data.map (fun item => (collectColumns data).map (projectCell item))) ∧
    (∀ (item : SheetRecord) (k : String), item.lookup k = none →
        projectCell item k = CellValue.str "") ∧
    (∀ (item : SheetRecord) (k : String) (v : CellValue),
        item.lookup k = some v → v ≠ CellValue.null → projectCell item k = v) ∧
    buildRows exampleBatchFill =
      [[CellValue.num 1, CellValue.str ""], [CellValue.num 2, CellValue.num 3]] := by
  refine ⟨fun _ => rfl, ?_, ?_, by decide⟩
  · intro item k h
    simp [projectCell, h]
  · intro item k v h hv
    simp [projectCell, h, hv]

/-- Witness for C6: a record without key `x` projects the empty string. -/
theorem append_row_projection_witness :
    projectCell [("a", CellValue.num 1)] "x" = CellValue.str "" :=
  append_row_projection.2.1 [("a", CellValue.num 1)] "x" (by decide)

/-- Claim C7: a non-2xx token-endpoint response fails with an error whose
detail carries the response body verbatim, and the exchange issues exactly
one fetch in every case — no automatic retry. -/
theorem token_exchange_failure_verbatim :
    (∀ resp : TokenResponse, resp.ok = false →
        exchangeJWTForToken resp =
          (Except.error ("Token exchange failed: " ++ resp.body), 1)) ∧
    (∀ resp : TokenResponse, (exchangeJWTForToken resp).2 = 1) := by
  constructor
  · intro resp h
    simp [exchangeJWTForToken, h]
  · intro resp
    by_cases h : resp.ok <;> simp [exchangeJWTForToken, h]

/-- Witness for C7 at a concrete failing response. -/
theorem token_exchange_failure_verbatim_witness :
    exchangeJWTForToken ⟨false, "bad request", ""⟩ =
      (Except.error ("Token exchange failed: " ++ "bad request"), 1) :=
  token_exchange_failure_verbatim.1 ⟨false, "bad request", ""⟩ rfl

/-- Claim C8: in objects format the count equals the number of fetched rows
including the header, which equals the raw-format count; the header row
never appears among the records (data is a map over the tail only); an
empty range yields `{data: [], count: 0}` and a header-only range yields
`{data: [], count: 1}`. -/
theorem read_count_includes_header :
    (∀ values : List (List String),
        (readFromSheet values ReadFormat.objects).count = values.length) ∧
    (∀ values : List (List String),
        (readFromSheet values ReadFormat.objects).count
          = (readFromSheet values ReadFormat.raw).count) ∧
    (∀ values : List (List String),
        (readFromSheet values ReadFormat.objects).data
          = ReadData.objects (values.tail.map (rowToRecord (values.headD [])))) ∧
    readFromSheet [] ReadFormat.objects = ⟨ReadData.objects [], 0⟩ ∧
    (∀ header : List String,
        readFromSheet [header] ReadFormat.objects = ⟨ReadData.objects [], 1⟩) := by
  refine ⟨?_, ?_, ?_, rfl, fun header => rfl⟩ <;>
    · intro values
      cases values <;> rfl

/-- Claim C5: the minted assertion is
`base64url(header) ++ "." ++ base64url(claims) ++ "." ++ base64url(sig)`
with the RS256/JWT header, the claim set
`iss = email, scope = space-joined scopes, aud = token endpoint,
exp = now + 3600, iat = now`, the signature computed over
`base64url(header) ++ "." ++ base64url(claims)`, and no `=` padding
anywhere in the assertion. -/
theorem jwt_assertion_structure (signFn : String → List Nat) (email : String)
    (scopes : List String) (now : Nat) :
    createJWT signFn email scopes now =
      base64urlEncodeString jwtHeaderJson ++ "." ++
      base64urlEncodeString (jwtClaimsJson email scopes now) ++ "." ++
      String.mk (base64urlEncodeChars (signFn
        (base64urlEncodeString jwtHeaderJson ++ "." ++
         base64urlEncodeString (jwtClaimsJson email scopes now)))) ∧
    jwtHeaderJson = "\x7b\"alg\":\"RS256\",\"typ\":\"JWT\"\x7d" ∧
    jwtClaimsJson email scopes now =
      "\x7b\"iss\":\"" ++ jsonEscape email ++ "\",\"scope\":\"" ++
      jsonEscape (String.intercalate " " scopes) ++ "\",\"aud\":\"" ++
      "https://oauth2.googleapis.com/token" ++ "\",\"exp\":" ++
      toString (now + 3600) ++ ",\"iat\":" ++ toString now ++ "\x7d" ∧
    '=' ∉ (createJWT signFn email scopes now).data := by
  refine ⟨rfl, rfl, rfl, ?_⟩
  intro hmem
  have h1 : createJWT signFn email scopes now =
      base64urlEncodeString jwtHeaderJson ++ "." ++
      base64urlEncodeString (jwtClaimsJson email scopes now) ++ "." ++
      String.mk (base64urlEncodeChars (signFn
        (base64urlEncodeString jwtHeaderJson ++ "." ++
         base64urlEncodeString (jwtClaimsJson email scopes now)))) := rfl
  rw [h1, String.data_append, String.data_append, String.data_append,
    String.data_append] at hmem
  simp only [List.mem_append] at hmem
  rcases hmem with ((((hm | hm) | hm) | hm) | hm)
  · exact (base64urlEncodeChars_alphabet _ '=' hm).1 rfl
  · exact absurd hm (by decide)
  · exact (base64urlEncodeChars_alphabet _ '=' hm).1 rfl
  · exact absurd hm (by decide)
  · exact (base64urlEncodeChars_alphabet _ '=' hm).1 rfl

/-- Witness for C5 at concrete credential data. -/
theorem jwt_assertion_structure_witness :
    '=' ∉ (createJWT (fun _ => [1, 2, 3]) "svc@example.com"
      ["https://www.googleapis.com/auth/spreadsheets"] 1700000000).data :=
  (jwt_assertion_structure (fun _ => [1, 2, 3]) "svc@example.com"
    ["https://www.googleapis.com/auth/spreadsheets"] 1700000000).2.2.2

/-- Claim C9: decode is a left inverse of encode on byte strings, and the
encoder's output never contains `=`, `+` or `/`. -/
theorem base64url_roundtrip :
    (∀ bytes : List Nat, (∀ b ∈ bytes, b < 256) →
        base64urlDecode (base64urlEncode bytes) = bytes) ∧
    (∀ bytes : List Nat, ∀ c ∈ (base64urlEncode bytes).data,
        c ≠ '=' ∧ c ≠ '+' ∧ c ≠ '/') :=
  ⟨fun bytes h => base64url_roundtrip_chars bytes h,
   fun bytes c hc => base64urlEncodeChars_alphabet bytes c hc⟩

/-- Witness for C9 at a concrete byte string. -/
theorem base64url_roundtrip_witness :
    base64urlDecode (base64urlEncode [77, 97, 110, 251, 0]) = [77, 97, 110, 251, 0] :=
  base64url_roundtrip.1 [77, 97, 110, 251, 0] (by decide)

/-- Environment for the C10 witness: successful append whose response lacks
`updates.updatedRows`. -/
def envNoUpdatedRows : SheetsEnv := ⟨true, "", [⟨0, "Sheet1"⟩], true, "", none⟩

/-- Claim C10: a successful append response lacking `updates.updatedRows`
(or carrying a falsy value) makes `appendValues` return 0 updated rows, and
the append path then reports success with `written = 0`, not an error. -/
theorem append_missing_updatedRows_written_zero :
    (∀ env : SheetsEnv, env.appendOk = true →
        (env.appendUpdates = none ∨ env.appendUpdates = some none ∨
          env.appendUpdates = some (some 0)) →
        appendValues env = Except.ok 0) ∧
    (∀ (env : SheetsEnv) (range : String) (data : List SheetRecord) (s : SheetProps),
        env.metadataOk = true → findTargetSheet env range = Except.ok s →
        data ≠ [] → env.appendOk = true →
        (env.appendUpdates = none ∨ env.appendUpdates = some none ∨
          env.appendUpdates = some (some 0)) →
        (appendToSheet env range data).1 = Except.ok 0) := by
  have hvals : ∀ env : SheetsEnv, env.appendOk = true →
      (env.appendUpdates = none ∨ env.appendUpdates = some none ∨
        env.appendUpdates = some (some 0)) →
      appendValues env = Except.ok 0 := by
    intro env hok hu
    rcases hu with hu | hu | hu <;> simp [appendValues, hok, hu]
  refine ⟨hvals, ?_⟩
  intro env range data s hm hft hne hok hu
  have hav := hvals env hok hu
  cases data with
  | nil => exact absurd rfl hne
  | cons r rs => simp [appendToSheet, hm, hft, hav]

/-- Witness for C10: one-record append against a response with no
`updates.updatedRows` reports `written = 0`. -/
theorem append_missing_updatedRows_written_zero_witness :
    (appendToSheet envNoUpdatedRows "Sheet1!A:Z" [[("a", CellValue.num 1)]]).1
      = Except.ok 0 :=
  append_missing_updatedRows_written_zero.2 envNoUpdatedRows "Sheet1!A:Z"
    [[("a", CellValue.num 1)]] ⟨0, "Sheet1"⟩ rfl rfl (by decide) rfl (Or.inl rfl)

end SheetsApi
